import Mathlib

/-!
Verification of the factorio-harmonizer core against its specification.

The development shallowly embeds the verified Python modules:
  * `modification_tracker.py` (History Store),
  * `data_models.py` (prototype keys, severities, dependency kinds),
  * `dependency_analyzer.py` (graph builder, availability analyzer,
    conflict detector, patch generator).

Dynamic Python values are modelled by the inductive type `Value`;
Python dictionaries are modelled as insertion-ordered association lists
(Python 3.7+ dicts preserve insertion order and that order is what every
iteration in the source observes).  `copy.deepcopy` is the identity in a
pure model.  Python `==` is modelled structurally by `Value.beq`; the two
divergences (Python's `True == 1` numeric coercion and key-order-blind
dict comparison) are never exercised by the comparisons the analyzed code
performs, which only ever compare strings, string-keyed scalars, or
enum members.  Unbounded recursion in the source is modelled with an
explicit fuel parameter: a result of `Option.none` means the evaluation
consumed every stack frame without producing an answer, and a proof that
the result is `none` for every fuel witnesses true divergence.
-/

/-- Model of a dynamic (Python) value: `None`, booleans, numbers, strings,
lists, and insertion-ordered string-keyed dictionaries. -/
inductive Value where
  | vnone
  | vbool (b : Bool)
  | vint (n : Int)
  | vstr (s : String)
  | vlist (xs : List Value)
  | vdict (xs : List (String × Value))

mutual

/-- Structural model of Python `==` on dynamic values (see the header
comment for the modelling caveats, none of which are exercised here). -/
def Value.beq : Value → Value → Bool
  | .vnone, .vnone => true
  | .vbool a, .vbool b => a == b
  | .vint a, .vint b => a == b
  | .vstr a, .vstr b => a == b
  | .vlist a, .vlist b => Value.beqList a b
  | .vdict a, .vdict b => Value.beqPairs a b
  | _, _ => false

/-- Pointwise `Value.beq` on lists. -/
def Value.beqList : List Value → List Value → Bool
  | [], [] => true
  | a :: xs, b :: ys => Value.beq a b && Value.beqList xs ys
  | _, _ => false

/-- Pointwise `Value.beq` on dictionary entries. -/
def Value.beqPairs : List (String × Value) → List (String × Value) → Bool
  | [], [] => true
  | (k1, v1) :: xs, (k2, v2) :: ys => k1 == k2 && Value.beq v1 v2 && Value.beqPairs xs ys
  | _, _ => false

end

/-- Python truthiness (`if value:`): `None`, `False`, `0`, `""`, `[]` and
`{}` are falsy, everything else is truthy. -/
def Value.truthy : Value → Bool
  | .vnone => false
  | .vbool b => b
  | .vint n => n != 0
  | .vstr s => s != ""
  | .vlist xs => !xs.isEmpty
  | .vdict xs => !xs.isEmpty

/-- First-match lookup in an association list (Python dict `d[k]` /
`d.get(k)`; keys are unique in every list the tracker builds). -/
def assocGet {α : Type} (xs : List (String × α)) (k : String) : Option α :=
  match xs with
  | [] => Option.none
  | (k1, v) :: rest => if k1 == k then some v else assocGet rest k

/-- In-place update of an association list: replaces the first binding of
`k`, or appends a new binding (Python dict assignment `d[k] = v`, which
keeps the key's existing position or inserts at the end). -/
def assocSet {α : Type} (xs : List (String × α)) (k : String) (v : α) : List (String × α) :=
  match xs with
  | [] => [(k, v)]
  | (k1, v1) :: rest =>
    if k1 == k then (k1, v) :: rest else (k1, v1) :: assocSet rest k v

/-- Python `d.get(k, default)` on a dictionary value; every call site in
the source guards with `isinstance(d, dict)` first, so the non-dict case
is unreachable and yields the default. -/
def Value.get (v : Value) (k : String) (default : Value) : Value :=
  match v with
  | .vdict xs => (assocGet xs k).getD default
  | _ => default

/-- Python `d.get(k)` (no default) on a dictionary value. -/
def Value.getOpt (v : Value) (k : String) : Option Value :=
  match v with
  | .vdict xs => assocGet xs k
  | _ => Option.none

/-! ## Prototype keys (`data_models.py`) -/

/-- Source `create_prototype_key`: renders `(kind, name)` as `"kind.name"`. -/
def create_prototype_key (prototype_type prototype_name : String) : String :=
  prototype_type ++ "." ++ prototype_name

/-- Character-level rendering of a prototype key, for reasoning about the
parse/format round trip at the level of the string's characters. -/
def createKeyChars (kind name : List Char) : List Char :=
  kind ++ ['.'] ++ name

/-- Splits a character list at its first `'.'` separator, mirroring
Python's `s.split('.', 1)`; `none` when no separator occurs, which the
source turns into a raised `ValueError`. -/
def splitFirstDot : List Char → Option (List Char × List Char)
  | [] => Option.none
  | c :: rest =>
    if c = '.' then some ([], rest)
    else
      match splitFirstDot rest with
      | some (a, b) => some (c :: a, b)
      | Option.none => Option.none

/-- Source `parse_prototype_key` at character level: fails (the source
raises) when the key has no separator, otherwise splits at the first one. -/
def parseKeyChars (key : List Char) : Option (List Char × List Char) :=
  splitFirstDot key

/-- Source `parse_prototype_key` on strings, via the character model. -/
def parse_prototype_key (key : String) : Option (String × String) :=
  (parseKeyChars key.toList).map (fun p => (String.mk p.1, String.mk p.2))

/-! ## History Store (`modification_tracker.py`) -/

/-- The ambient mod context set by `set_mod_context` (a three-entry dict
in the source, hence always truthy when present). -/
structure ModContext where
  mod_name : String
  file_path : String
  line_number : Option Int

/-- Source `ModificationRecord`.  Timestamps are modelled by a logical
clock drawn from the tracker (the source stamps `datetime.now()`, which is
monotone across the single-threaded run and otherwise unused). -/
structure ModificationRecord where
  prototype_type : String
  prototype_name : String
  mod_name : String
  file_path : String
  line_number : Option Int
  timestamp : Nat
  operation : String
  old_value : Value := Value.vnone
  new_value : Value := Value.vnone
  field_path : String := ""

/-- Source `PrototypeHistory`. -/
structure PrototypeHistory where
  prototype_type : String
  prototype_name : String
  modifications : List ModificationRecord := []
  current_value : Value := Value.vnone

/-- Source `PrototypeHistory.add_modification`: appends the record and
makes its `new_value` the current value. -/
def PrototypeHistory.add_modification (h : PrototypeHistory) (record : ModificationRecord) :
    PrototypeHistory :=
  { h with
    modifications := h.modifications ++ [record]
    current_value := record.new_value }

/-- Source `ModificationTracker` state. -/
structure ModificationTracker where
  prototype_histories : List (String × PrototypeHistory) := []
  current_mod_context : Option ModContext := Option.none
  data_raw_snapshot : List (String × List (String × Value)) := []
  clock : Nat := 0

/-- Source `ModificationTracker.set_mod_context`. -/
def set_mod_context (t : ModificationTracker) (mod_name file_path : String)
    (line_number : Option Int) : ModificationTracker :=
  { t with current_mod_context := some ⟨mod_name, file_path, line_number⟩ }

/-- Source `ModificationTracker.clear_mod_context`. -/
def clear_mod_context (t : ModificationTracker) : ModificationTracker :=
  { t with current_mod_context := Option.none }

/-- The record constructed by `track_prototype_addition` once the context
check has passed.  Note the source's `old_value=copy.deepcopy(old_value)
if old_value else None`: a falsy prior current value is recorded as
`None`, not as itself. -/
def additionRecord (t : ModificationTracker) (ctx : ModContext)
    (prototype_type prototype_name : String) (prototype_data : Value) : ModificationRecord :=
  let key := create_prototype_key prototype_type prototype_name
  let prior := assocGet t.prototype_histories key
  { prototype_type := prototype_type
    prototype_name := prototype_name
    mod_name := ctx.mod_name
    file_path := ctx.file_path
    line_number := ctx.line_number
    timestamp := t.clock
    operation := match prior with | some _ => "overwrite" | Option.none => "create"
    old_value :=
      match prior with
      | some h => if h.current_value.truthy then h.current_value else Value.vnone
      | Option.none => Value.vnone
    new_value := prototype_data }

/-- Source `ModificationTracker.track_prototype_addition`: drops the
record when no mod context is active; otherwise appends an
overwrite/create record and refreshes the `data.raw` snapshot. -/
def track_prototype_addition (t : ModificationTracker)
    (prototype_type prototype_name : String) (prototype_data : Value) : ModificationTracker :=
  match t.current_mod_context with
  | Option.none => t
  | some ctx =>
    let key := create_prototype_key prototype_type prototype_name
    let record := additionRecord t ctx prototype_type prototype_name prototype_data
    let hist := (assocGet t.prototype_histories key).getD
      { prototype_type := prototype_type, prototype_name := prototype_name }
    { t with
      prototype_histories := assocSet t.prototype_histories key (hist.add_modification record)
      data_raw_snapshot := assocSet t.data_raw_snapshot prototype_type
        (assocSet ((assocGet t.data_raw_snapshot prototype_type).getD []) prototype_name
          prototype_data)
      clock := t.clock + 1 }

/-- Source `ModificationTracker.track_prototype_modification`: drops the
record when no mod context is active; otherwise appends a `modify` record
(creating an empty history first if needed). -/
def track_prototype_modification (t : ModificationTracker)
    (prototype_type prototype_name field_path : String) (old_value new_value : Value) :
    ModificationTracker :=
  match t.current_mod_context with
  | Option.none => t
  | some ctx =>
    let key := create_prototype_key prototype_type prototype_name
    let record : ModificationRecord :=
      { prototype_type := prototype_type
        prototype_name := prototype_name
        mod_name := ctx.mod_name
        file_path := ctx.file_path
        line_number := ctx.line_number
        timestamp := t.clock
        operation := "modify"
        old_value := old_value
        new_value := new_value
        field_path := field_path }
    let hist := (assocGet t.prototype_histories key).getD
      { prototype_type := prototype_type, prototype_name := prototype_name }
    { t with
      prototype_histories := assocSet t.prototype_histories key (hist.add_modification record)
      clock := t.clock + 1 }

/-- Source `ModificationTracker.get_conflicts`: every key whose records
were authored by more than one distinct mod, paired with its distinct
authors.  Python's `set(...)` is modelled by `List.dedup` (only the size
and membership of the set are ever consumed). -/
def get_conflicts (t : ModificationTracker) : List (String × List String) :=
  t.prototype_histories.filterMap (fun kv =>
    let mod_names := (kv.2.modifications.map (·.mod_name)).dedup
    if mod_names.length > 1 then some (kv.1, mod_names) else Option.none)

/-- One call into the History Store's mutating interface. -/
inductive TrackOp where
  | setContext (mod_name file_path : String) (line_number : Option Int)
  | clearContext
  | addition (prototype_type prototype_name : String) (prototype_data : Value)
  | modification (prototype_type prototype_name field_path : String) (old_value new_value : Value)

/-- Applies one interface call to the tracker state. -/
def applyOp (t : ModificationTracker) : TrackOp → ModificationTracker
  | .setContext m f l => set_mod_context t m f l
  | .clearContext => clear_mod_context t
  | .addition pt pn d => track_prototype_addition t pt pn d
  | .modification pt pn fp o n => track_prototype_modification t pt pn fp o n

/-- Applies a sequence of interface calls, left to right. -/
def applyOps (t : ModificationTracker) (ops : List TrackOp) : ModificationTracker :=
  ops.foldl applyOp t

/-- The freshly constructed tracker. -/
def initialTracker : ModificationTracker := {}

/-! ## Association-list lemmas -/

/-- Updating a key makes it the value found by lookup. -/
theorem assocGet_assocSet_self {α : Type} (xs : List (String × α)) (k : String) (v : α) :
    assocGet (assocSet xs k v) k = some v := by
  induction xs with
  | nil => simp [assocSet, assocGet]
  | cons p rest ih =>
    obtain ⟨k1, v1⟩ := p
    by_cases hk : (k1 == k) = true
    · simp [assocSet, assocGet, hk]
    · simp [assocSet, assocGet, hk, ih]

/-- Updating one key leaves lookups of every other key unchanged. -/
theorem assocGet_assocSet_ne {α : Type} (xs : List (String × α)) (k k2 : String) (v : α)
    (hne : k2 ≠ k) : assocGet (assocSet xs k v) k2 = assocGet xs k2 := by
  induction xs with
  | nil =>
    have hbf : (k == k2) = false := by
      simp only [beq_eq_false_iff_ne]
      exact fun h => hne h.symm
    simp [assocSet, assocGet, hbf]
  | cons p rest ih =>
    obtain ⟨k1, v1⟩ := p
    by_cases hk : (k1 == k) = true
    · have hk1 : k1 = k := eq_of_beq hk
      have hbf : (k1 == k2) = false := by
        simp only [beq_eq_false_iff_ne]
        intro h
        exact hne (h.symm.trans hk1)
      simp [assocSet, assocGet, hk, hbf]
    · simp [assocSet, assocGet, hk, ih]

/-- A successful lookup result is a member of the list. -/
theorem mem_of_assocGet {α : Type} {xs : List (String × α)} {k : String} {v : α}
    (h : assocGet xs k = some v) : (k, v) ∈ xs := by
  induction xs with
  | nil => simp [assocGet] at h
  | cons p rest ih =>
    obtain ⟨k1, v1⟩ := p
    by_cases hk : (k1 == k) = true
    · have hk1 : k1 = k := eq_of_beq hk
      simp [assocGet, hk] at h
      subst hk1 h
      exact List.mem_cons_self _ _
    · simp [assocGet, hk] at h
      exact List.mem_cons_of_mem _ (ih h)

/-- With duplicate-free keys, membership determines the lookup result. -/
theorem assocGet_of_mem_nodup {α : Type} {xs : List (String × α)} {k : String} {v : α}
    (hnd : (xs.map Prod.fst).Nodup) (hmem : (k, v) ∈ xs) : assocGet xs k = some v := by
  induction xs with
  | nil => simp at hmem
  | cons p rest ih =>
    obtain ⟨k1, v1⟩ := p
    simp only [List.map_cons, List.nodup_cons] at hnd
    rcases List.mem_cons.mp hmem with heq | hmem'
    · have hk : k = k1 := congrArg Prod.fst heq
      have hv : v = v1 := congrArg Prod.snd heq
      subst hk hv
      simp [assocGet]
    · have hk1 : (k1 == k) = false := by
        simp only [beq_eq_false_iff_ne]
        intro h
        exact hnd.1 (h ▸ (List.mem_map.mpr ⟨(k, v), hmem', rfl⟩))
      simp [assocGet, hk1]
      exact ih hnd.2 hmem'

/-! ## History Store theorems -/

/-- The last-writer-wins invariant over a histories table. -/
def HistoriesOk (hs : List (String × PrototypeHistory)) : Prop :=
  ∀ key h r, assocGet hs key = some h → h.modifications.getLast? = some r →
    h.current_value = r.new_value

/-- Appending any record through `add_modification` preserves the
last-writer-wins invariant. -/
theorem histOk_set (hs : List (String × PrototypeHistory)) (key : String)
    (hist : PrototypeHistory) (record : ModificationRecord) (hok : HistoriesOk hs) :
    HistoriesOk (assocSet hs key (hist.add_modification record)) := by
  intro k2 h2 r2 hget hlast
  by_cases hk : k2 = key
  · subst hk
    rw [assocGet_assocSet_self] at hget
    injection hget with hh
    subst hh
    simp only [PrototypeHistory.add_modification, List.getLast?_concat] at hlast ⊢
    injection hlast with hr
    subst hr
    rfl
  · rw [assocGet_assocSet_ne _ _ _ _ hk] at hget
    exact hok _ _ _ hget hlast

/-- Every single interface call preserves the last-writer-wins invariant. -/
theorem applyOp_histOk (t : ModificationTracker) (op : TrackOp)
    (hok : HistoriesOk t.prototype_histories) :
    HistoriesOk (applyOp t op).prototype_histories := by
  cases op with
  | setContext m f l => exact hok
  | clearContext => exact hok
  | addition pt pn d =>
    simp only [applyOp, track_prototype_addition]
    cases t.current_mod_context with
    | none => exact hok
    | some ctx => exact histOk_set _ _ _ _ hok
  | modification pt pn fp o n =>
    simp only [applyOp, track_prototype_modification]
    cases t.current_mod_context with
    | none => exact hok
    | some ctx => exact histOk_set _ _ _ _ hok

/-- Any call sequence preserves the last-writer-wins invariant. -/
theorem applyOps_histOk (ops : List TrackOp) (t : ModificationTracker)
    (hok : HistoriesOk t.prototype_histories) :
    HistoriesOk (applyOps t ops).prototype_histories := by
  induction ops generalizing t with
  | nil => exact hok
  | cons op rest ih => exact ih _ (applyOp_histOk _ _ hok)

/-- C2: after any sequence of History Store calls, every key's
`current_value` equals the `new_value` of the most recently appended
modification record; the invariant is preserved by every append. -/
theorem tracker_last_writer_wins (ops : List TrackOp) (key : String)
    (h : PrototypeHistory) (r : ModificationRecord)
    (hget : assocGet (applyOps initialTracker ops).prototype_histories key = some h)
    (hlast : h.modifications.getLast? = some r) :
    h.current_value = r.new_value := by
  have hinit : HistoriesOk initialTracker.prototype_histories := by
    intro k h0 r0 hg
    simp [initialTracker, assocGet] at hg
  exact applyOps_histOk ops initialTracker hinit key h r hget hlast

/-- Witness: a create followed by a field modification on `item.iron`
leaves `current_value` equal to the last record's `new_value`. -/
theorem tracker_last_writer_wins_witness :
    ∃ h r, assocGet (applyOps initialTracker
        [TrackOp.setContext "base" "data.lua" (some 1),
         TrackOp.addition "item" "iron" (Value.vint 1),
         TrackOp.modification "item" "iron" "stack_size" (Value.vint 1) (Value.vint 2)]
      ).prototype_histories "item.iron" = some h ∧
      h.modifications.getLast? = some r ∧ h.current_value = r.new_value :=
  ⟨_, _, rfl, rfl,
    tracker_last_writer_wins
      [TrackOp.setContext "base" "data.lua" (some 1),
       TrackOp.addition "item" "iron" (Value.vint 1),
       TrackOp.modification "item" "iron" "stack_size" (Value.vint 1) (Value.vint 2)]
      "item.iron" _ _ rfl rfl⟩

/-- C3: a key appears in `get_conflicts` exactly when the set of distinct
mod names over its modification records has at least two elements. -/
theorem get_conflicts_membership (t : ModificationTracker) (key : String)
    (hnd : (t.prototype_histories.map Prod.fst).Nodup) :
    (∃ mods, (key, mods) ∈ get_conflicts t) ↔
      ∃ h, assocGet t.prototype_histories key = some h ∧
        2 ≤ ((h.modifications.map (fun record => record.mod_name)).toFinset).card := by
  constructor
  · rintro ⟨mods, hmem⟩
    simp only [get_conflicts, List.mem_filterMap] at hmem
    obtain ⟨⟨k1, h1⟩, hmem1, hf⟩ := hmem
    by_cases hlen : 1 < ((h1.modifications.map (fun record => record.mod_name)).dedup).length
    · simp only [hlen, if_true, Option.some.injEq, Prod.mk.injEq] at hf
      obtain ⟨hk, hm⟩ := hf
      subst hk
      refine ⟨h1, assocGet_of_mem_nodup hnd hmem1, ?_⟩
      have hct := List.card_toFinset (h1.modifications.map (fun record => record.mod_name))
      omega
    · simp only [hlen, if_false] at hf
      exact Option.noConfusion hf
  · rintro ⟨h, hget, hcard⟩
    have hmem := mem_of_assocGet hget
    have hct := List.card_toFinset (h.modifications.map (fun record => record.mod_name))
    have hlen : 1 < ((h.modifications.map (fun record => record.mod_name)).dedup).length := by
      omega
    refine ⟨(h.modifications.map (fun record => record.mod_name)).dedup, ?_⟩
    simp only [get_conflicts, List.mem_filterMap]
    exact ⟨(key, h), hmem, by simp only [hlen, if_true]⟩

/-- Witness: two mods overwriting `item.iron` make it a conflict. -/
theorem get_conflicts_membership_witness :
    ∃ mods, (("item.iron" : String), mods) ∈ get_conflicts (applyOps initialTracker
      [TrackOp.setContext "modA" "a.lua" Option.none,
       TrackOp.addition "item" "iron" (Value.vint 1),
       TrackOp.setContext "modB" "b.lua" Option.none,
       TrackOp.addition "item" "iron" (Value.vint 2)]) :=
  (get_conflicts_membership (applyOps initialTracker
      [TrackOp.setContext "modA" "a.lua" Option.none,
       TrackOp.addition "item" "iron" (Value.vint 1),
       TrackOp.setContext "modB" "b.lua" Option.none,
       TrackOp.addition "item" "iron" (Value.vint 2)]) "item.iron"
    (by decide)).mpr ⟨_, rfl, by decide⟩

/-- Splitting at the first separator undoes appending one, provided the
left part is separator-free. -/
theorem splitFirstDot_append (kind name : List Char) (hdot : '.' ∉ kind) :
    splitFirstDot (kind ++ '.' :: name) = some (kind, name) := by
  induction kind with
  | nil => simp [splitFirstDot]
  | cons c rest ih =>
    have hc : c ≠ '.' := fun h => hdot (h ▸ List.mem_cons_self c rest)
    have hdr : '.' ∉ rest := fun hm => hdot (List.mem_cons_of_mem _ hm)
    simp [splitFirstDot, hc, ih hdr]

/-- C6: for a non-empty, separator-free kind, parsing the canonical
rendering of a prototype key recovers the original pair. -/
theorem parse_create_prototype_key_roundtrip (kind name : String)
    (hne : kind ≠ "") (hdot : '.' ∉ kind.toList) :
    parse_prototype_key (create_prototype_key kind name) = some (kind, name) := by
  have hlist : (create_prototype_key kind name).toList =
      kind.toList ++ '.' :: name.toList := by
    simp [create_prototype_key, String.toList, String.data_append]
  unfold parse_prototype_key parseKeyChars
  rw [hlist, splitFirstDot_append _ _ hdot]
  rfl

/-- Witness: `recipe` round-trips with a name that itself contains the
separator. -/
theorem parse_create_prototype_key_roundtrip_witness :
    ("recipe" : String) ≠ "" ∧ '.' ∉ ("recipe" : String).toList ∧
    parse_prototype_key (create_prototype_key "recipe" "iron.plate") =
      some ("recipe", "iron.plate") :=
  ⟨by decide, by decide,
    parse_create_prototype_key_roundtrip "recipe" "iron.plate" (by decide) (by decide)⟩

/-- C7: with no active mod context, both tracking entry points drop the
record and leave the whole tracker state unchanged (no exception). -/
theorem no_context_drops_records (t : ModificationTracker)
    (hctx : t.current_mod_context = Option.none)
    (pt pn fp : String) (d ov nv : Value) :
    track_prototype_addition t pt pn d = t ∧
    track_prototype_modification t pt pn fp ov nv = t := by
  constructor
  · unfold track_prototype_addition
    rw [hctx]
  · unfold track_prototype_modification
    rw [hctx]

/-- Witness: the fresh tracker has no context and absorbs both calls. -/
theorem no_context_drops_records_witness :
    initialTracker.current_mod_context = Option.none ∧
    track_prototype_addition initialTracker "item" "x" (Value.vint 1) = initialTracker ∧
    track_prototype_modification initialTracker "item" "x" "f" Value.vnone (Value.vint 1) =
      initialTracker :=
  ⟨rfl,
    (no_context_drops_records initialTracker rfl "item" "x" "f" (Value.vint 1) Value.vnone
      (Value.vint 1)).1,
    (no_context_drops_records initialTracker rfl "item" "x" "f" (Value.vint 1) Value.vnone
      (Value.vint 1)).2⟩

/-- C8 counterexample: overwriting a prototype whose prior current value
is the empty dict records `old_value = None`, not the prior value — the
source guards the deepcopy with truthiness (`if old_value else None`). -/
theorem addition_old_value_counterexample :
    ∃ prior h r,
      assocGet (applyOps initialTracker
          [TrackOp.setContext "base" "a.lua" Option.none,
           TrackOp.addition "item" "x" (Value.vdict [])]).prototype_histories "item.x"
        = some prior ∧
      assocGet (applyOps initialTracker
          [TrackOp.setContext "base" "a.lua" Option.none,
           TrackOp.addition "item" "x" (Value.vdict []),
           TrackOp.addition "item" "x" (Value.vdict [("stack_size", Value.vint 1)])]
        ).prototype_histories "item.x" = some h ∧
      h.modifications.getLast? = some r ∧
      r.operation = "overwrite" ∧
      ¬ r.old_value = prior.current_value := by
  refine ⟨_, _, _, rfl, rfl, rfl, rfl, ?_⟩
  intro hEq
  exact Value.noConfusion hEq

/-- C8 amended: on an existing key the appended record is an `overwrite`
whose `old_value` is the prior current value if that value is truthy and
`None` otherwise; on a fresh key it is a `create` with empty `old_value`;
and the tracker really appends exactly this record. -/
theorem addition_record_semantics (t : ModificationTracker) (ctx : ModContext)
    (hctx : t.current_mod_context = some ctx) (pt pn : String) (d : Value) :
    (∀ h, assocGet t.prototype_histories (create_prototype_key pt pn) = some h →
        (additionRecord t ctx pt pn d).operation = "overwrite" ∧
        (additionRecord t ctx pt pn d).old_value =
          (if h.current_value.truthy then h.current_value else Value.vnone)) ∧
    (assocGet t.prototype_histories (create_prototype_key pt pn) = Option.none →
        (additionRecord t ctx pt pn d).operation = "create" ∧
        (additionRecord t ctx pt pn d).old_value = Value.vnone) ∧
    (∃ h0, assocGet (track_prototype_addition t pt pn d).prototype_histories
          (create_prototype_key pt pn) =
        some (h0.add_modification (additionRecord t ctx pt pn d)) ∧
      h0 = (assocGet t.prototype_histories (create_prototype_key pt pn)).getD
        { prototype_type := pt, prototype_name := pn }) := by
  refine ⟨?_, ?_, ?_⟩
  · intro h hget
    simp [additionRecord, hget]
  · intro hget
    simp [additionRecord, hget]
  · refine ⟨_, ?_, rfl⟩
    unfold track_prototype_addition
    rw [hctx]
    exact assocGet_assocSet_self ..

/-- Witness: a truthy prior value is carried into `old_value` on
overwrite, and the record is appended. -/
theorem addition_record_semantics_witness :
    (applyOps initialTracker
        [TrackOp.setContext "base" "a.lua" Option.none,
         TrackOp.addition "item" "y" (Value.vint 5)]).current_mod_context =
      some ⟨"base", "a.lua", Option.none⟩ ∧
    (∀ h, assocGet (applyOps initialTracker
          [TrackOp.setContext "base" "a.lua" Option.none,
           TrackOp.addition "item" "y" (Value.vint 5)]).prototype_histories
          (create_prototype_key "item" "y") = some h →
        (additionRecord (applyOps initialTracker
            [TrackOp.setContext "base" "a.lua" Option.none,
             TrackOp.addition "item" "y" (Value.vint 5)])
          ⟨"base", "a.lua", Option.none⟩ "item" "y" (Value.vint 7)).operation = "overwrite" ∧
        (additionRecord (applyOps initialTracker
            [TrackOp.setContext "base" "a.lua" Option.none,
             TrackOp.addition "item" "y" (Value.vint 5)])
          ⟨"base", "a.lua", Option.none⟩ "item" "y" (Value.vint 7)).old_value =
          (if h.current_value.truthy then h.current_value else Value.vnone)) :=
  ⟨rfl,
    (addition_record_semantics (applyOps initialTracker
        [TrackOp.setContext "base" "a.lua" Option.none,
         TrackOp.addition "item" "y" (Value.vint 5)])
      ⟨"base", "a.lua", Option.none⟩ rfl "item" "y" (Value.vint 7)).1⟩

/-! ## Dependency model (`data_models.py`, `dependency_analyzer.py`) -/

/-- Source `ConflictSeverity` enum. -/
inductive ConflictSeverity where
  | CRITICAL
  | HIGH
  | MEDIUM
  | LOW
  | INFO
  deriving DecidableEq, BEq

/-- Source `DependencyType` enum. -/
inductive DependencyType where
  | RECIPE_INGREDIENT
  | RECIPE_RESULT
  | TECHNOLOGY_PREREQUISITE
  | TECHNOLOGY_UNLOCK
  | CRAFTING_CATEGORY
  | FUEL_CATEGORY
  | RESOURCE_CATEGORY
  deriving DecidableEq, BEq

/-- Source `PrototypeDependency`.  Name and type fields that the source
fills from dynamically-typed prototype data are `Value`s; `source_type`
is always a string literal at every construction site. -/
structure PrototypeDependency where
  source_type : String
  source_name : Value
  target_type : Value
  target_name : Value
  dependency_type : DependencyType
  required : Bool := true
  amount : Option Value := Option.none

/-- One ingredient entry of `_analyze_recipe_dependencies`: the object
form (a dict with a truthy `name`) and the legacy pair form (a list of
length at least two with truthy first element) yield a dependency; every
other shape is skipped (`continue`). -/
def ingredientDependency (recipe_name : Value) (ingredient : Value) :
    Option PrototypeDependency :=
  match ingredient with
  | Value.vdict _ =>
    match ingredient.getOpt "name" with
    | some item_name =>
      if item_name.truthy then
        some { source_type := "recipe", source_name := recipe_name
               target_type := ingredient.get "type" (Value.vstr "item")
               target_name := item_name
               dependency_type := DependencyType.RECIPE_INGREDIENT
               amount := some (ingredient.get "amount" (Value.vint 1)) }
      else Option.none
    | Option.none => Option.none
  | Value.vlist xs =>
    match xs with
    | item_name :: amount :: _ =>
      if item_name.truthy then
        some { source_type := "recipe", source_name := recipe_name
               target_type := Value.vstr "item"
               target_name := item_name
               dependency_type := DependencyType.RECIPE_INGREDIENT
               amount := some amount }
      else Option.none
    | _ => Option.none
  | _ => Option.none

/-- Source `_analyze_recipe_dependencies`: one ingredient dependency per
accepted ingredient entry, plus one crafting-category dependency when the
`category` field differs from the implicit `crafting` default. -/
def analyze_recipe_dependencies (recipe_data : Value) : List PrototypeDependency :=
  let recipe_name := recipe_data.get "name" (Value.vstr "")
  let ingredients := recipe_data.get "ingredients" (Value.vlist [])
  let ingredientDeps :=
    match ingredients with
    | Value.vlist xs => xs.filterMap (ingredientDependency recipe_name)
    | _ => []
  let category := recipe_data.get "category" (Value.vstr "crafting")
  let categoryDeps :=
    if Value.beq category (Value.vstr "crafting") then []
    else
      [{ source_type := "recipe", source_name := recipe_name
         target_type := Value.vstr "recipe-category"
         target_name := category
         dependency_type := DependencyType.CRAFTING_CATEGORY }]
  ingredientDeps ++ categoryDeps

/-- Source `_analyze_technology_dependencies`: one prerequisite
dependency per entry of the `prerequisites` list. -/
def analyze_technology_dependencies (tech_data : Value) : List PrototypeDependency :=
  let tech_name := tech_data.get "name" (Value.vstr "")
  match tech_data.get "prerequisites" (Value.vlist []) with
  | Value.vlist prereqs =>
    prereqs.map (fun prereq =>
      { source_type := "technology", source_name := tech_name
        target_type := Value.vstr "technology"
        target_name := prereq
        dependency_type := DependencyType.TECHNOLOGY_PREREQUISITE })
  | _ => []

/-- Spec-side shape predicate for C9: an ingredient entry in the object
form (`name` present and truthy) or the legacy pair form (at least two
entries, truthy name first). -/
def specIngredientShape : Value → Bool
  | Value.vdict xs =>
    match assocGet xs "name" with
    | some nm => nm.truthy
    | Option.none => false
  | Value.vlist xs =>
    match xs with
    | nm :: _ :: _ => nm.truthy
    | _ => false
  | _ => false

/-- An ingredient entry produces a dependency exactly when it has one of
the two accepted shapes. -/
theorem ingredientDependency_isSome (rn i : Value) :
    (ingredientDependency rn i).isSome = specIngredientShape i := by
  cases i with
  | vdict xs =>
    simp only [ingredientDependency, specIngredientShape, Value.getOpt]
    cases assocGet xs "name" with
    | none => rfl
    | some nm =>
      by_cases t : nm.truthy = true
      · simp [t]
      · simp [t]
  | vlist xs =>
    match xs with
    | [] => rfl
    | [a] => rfl
    | a :: b :: rest =>
      simp only [ingredientDependency, specIngredientShape]
      by_cases t : a.truthy = true
      · simp [t]
      · simp [t]
  | vnone => rfl
  | vbool b => rfl
  | vint n => rfl
  | vstr s => rfl

/-- Every dependency an ingredient entry produces is an ingredient
dependency. -/
theorem ingredientDependency_type (rn i : Value) (d : PrototypeDependency)
    (h : ingredientDependency rn i = some d) :
    d.dependency_type = DependencyType.RECIPE_INGREDIENT := by
  cases i with
  | vdict xs =>
    simp only [ingredientDependency, Value.getOpt] at h
    split at h
    · split at h
      · injection h with hd
        subst hd
        rfl
      · exact Option.noConfusion h
    · exact Option.noConfusion h
  | vlist xs =>
    match xs with
    | [] => exact Option.noConfusion h
    | [a] => exact Option.noConfusion h
    | a :: b :: rest =>
      simp only [ingredientDependency] at h
      by_cases t : a.truthy = true
      · rw [if_pos t] at h
        injection h with hd
        subst hd
        rfl
      · rw [if_neg t] at h
        exact Option.noConfusion h
  | vnone => exact Option.noConfusion h
  | vbool b => exact Option.noConfusion h
  | vint n => exact Option.noConfusion h
  | vstr s => exact Option.noConfusion h

/-- Counting positives over a `filterMap` whose outputs all satisfy the
predicate counts the entries on which the function fires. -/
theorem countP_filterMap_all {α β : Type} (f : α → Option β) (p : β → Bool)
    (hall : ∀ a b, f a = some b → p b = true) (xs : List α) :
    (xs.filterMap f).countP p = xs.countP (fun a => (f a).isSome) := by
  induction xs with
  | nil => rfl
  | cons a rest ih =>
    cases hf : f a with
    | none => simp [List.filterMap_cons, hf, ih, List.countP_cons]
    | some b =>
      simp [List.filterMap_cons, hf, ih, List.countP_cons, hall a b hf]

/-- Counting over a `filterMap` whose outputs never satisfy the predicate
gives zero. -/
theorem countP_filterMap_none {α β : Type} (f : α → Option β) (p : β → Bool)
    (hall : ∀ a b, f a = some b → p b = false) (xs : List α) :
    (xs.filterMap f).countP p = 0 := by
  induction xs with
  | nil => rfl
  | cons a rest ih =>
    cases hf : f a with
    | none => simp [List.filterMap_cons, hf, ih]
    | some b =>
      simp [List.filterMap_cons, hf, ih, List.countP_cons, hall a b hf]

/-- C9: for a structured recipe, the builder emits exactly one ingredient
dependency per ingredient entry of an accepted shape (object form or
legacy pair form; other shapes contribute nothing), and exactly one
crafting-category dependency when `category` is present and differs from
the `crafting` default, none when it is absent or equal to it. -/
theorem recipe_dependency_extraction (fields : List (String × Value)) (xs : List Value)
    (hing : assocGet fields "ingredients" = some (Value.vlist xs)) :
    ((analyze_recipe_dependencies (Value.vdict fields)).countP
        (fun d => d.dependency_type == DependencyType.RECIPE_INGREDIENT)) =
      xs.countP specIngredientShape ∧
    ((analyze_recipe_dependencies (Value.vdict fields)).countP
        (fun d => d.dependency_type == DependencyType.CRAFTING_CATEGORY)) =
      (match assocGet fields "category" with
       | some c => if Value.beq c (Value.vstr "crafting") then 0 else 1
       | Option.none => 0) := by
  have hname : ∀ rn i d, ingredientDependency rn i = some d →
      (d.dependency_type == DependencyType.RECIPE_INGREDIENT) = true := by
    intro rn i d h
    rw [ingredientDependency_type rn i d h]
    rfl
  have hnotcat : ∀ rn i d, ingredientDependency rn i = some d →
      (d.dependency_type == DependencyType.CRAFTING_CATEGORY) = false := by
    intro rn i d h
    rw [ingredientDependency_type rn i d h]
    rfl
  have hcnt : ∀ rn, (xs.filterMap (ingredientDependency rn)).countP
      (fun d => d.dependency_type == DependencyType.RECIPE_INGREDIENT) =
      xs.countP specIngredientShape := by
    intro rn
    rw [countP_filterMap_all _ _ (hname rn)]
    congr 1
    funext a
    rw [ingredientDependency_isSome]
  constructor
  · simp only [analyze_recipe_dependencies, Value.get, hing, Option.getD_some,
      List.countP_append]
    cases hc : assocGet fields "category" with
    | none =>
      simp only [Option.getD_none, Value.beq, beq_self_eq_true, if_true, List.countP_nil,
        Nat.add_zero]
      exact hcnt _
    | some c =>
      by_cases hb : Value.beq c (Value.vstr "crafting") = true
      · simp only [Option.getD_some, hb, if_true, List.countP_nil, Nat.add_zero]
        exact hcnt _
      · simp only [Option.getD_some, hb, if_false, List.countP_cons, List.countP_nil]
        simp only [hcnt _]
        rfl
  · simp only [analyze_recipe_dependencies, Value.get, hing, Option.getD_some,
      List.countP_append]
    rw [countP_filterMap_none _ _ (hnotcat _)]
    cases hc : assocGet fields "category" with
    | none =>
      simp [Value.beq]
    | some c =>
      by_cases hb : Value.beq c (Value.vstr "crafting") = true
      · simp [hb]
      · simp [Option.getD_some, hb, List.countP_cons]
        rfl

/-- Witness: a recipe with one legacy-pair ingredient, one object-form
ingredient, one rejected entry, and a non-default category. -/
theorem recipe_dependency_extraction_witness :
    assocGet [("name", Value.vstr "gear"),
      ("ingredients", Value.vlist
        [Value.vlist [Value.vstr "iron", Value.vint 2],
         Value.vdict [("type", Value.vstr "item"), ("name", Value.vstr "wood"),
           ("amount", Value.vint 1)],
         Value.vstr "junk"]),
      ("category", Value.vstr "smelting")] "ingredients" = some (Value.vlist
        [Value.vlist [Value.vstr "iron", Value.vint 2],
         Value.vdict [("type", Value.vstr "item"), ("name", Value.vstr "wood"),
           ("amount", Value.vint 1)],
         Value.vstr "junk"]) ∧
    ((analyze_recipe_dependencies (Value.vdict [("name", Value.vstr "gear"),
      ("ingredients", Value.vlist
        [Value.vlist [Value.vstr "iron", Value.vint 2],
         Value.vdict [("type", Value.vstr "item"), ("name", Value.vstr "wood"),
           ("amount", Value.vint 1)],
         Value.vstr "junk"]),
      ("category", Value.vstr "smelting")])).countP
        (fun d => d.dependency_type == DependencyType.RECIPE_INGREDIENT)) =
      ([Value.vlist [Value.vstr "iron", Value.vint 2],
        Value.vdict [("type", Value.vstr "item"), ("name", Value.vstr "wood"),
          ("amount", Value.vint 1)],
        Value.vstr "junk"] : List Value).countP specIngredientShape :=
  ⟨rfl,
    (recipe_dependency_extraction [("name", Value.vstr "gear"),
      ("ingredients", Value.vlist
        [Value.vlist [Value.vstr "iron", Value.vint 2],
         Value.vdict [("type", Value.vstr "item"), ("name", Value.vstr "wood"),
           ("amount", Value.vint 1)],
         Value.vstr "junk"]),
      ("category", Value.vstr "smelting")]
      [Value.vlist [Value.vstr "iron", Value.vint 2],
       Value.vdict [("type", Value.vstr "item"), ("name", Value.vstr "wood"),
         ("amount", Value.vint 1)],
       Value.vstr "junk"] rfl).1⟩

/-! ## Availability analyzer (`dependency_analyzer.py`) -/

/-- The analyzer state read by the availability routines: tracked
histories, the dependency graph, and the per-planet base resources. -/
structure AnalyzerState where
  prototype_histories : List (String × PrototypeHistory)
  dependency_graph : List (String × List PrototypeDependency)
  planet_resources : List (String × List String)

/-- Python `self.planet_resources.get(planet, set())`. -/
def resourcesFor (st : AnalyzerState) (planet : String) : List String :=
  (assocGet st.planet_resources planet).getD []

/-- One iteration of the source's inner results loop: a dict result whose
`name` equals the item (Python `result.get('name') == item_name`). -/
def resultMatches (item_name : Value) (result : Value) : Bool :=
  match result with
  | Value.vdict _ => Value.beq ((result.getOpt "name").getD Value.vnone) item_name
  | _ => false

mutual

/-- Source `_is_item_available_on_planet`.  The source recursion carries
no visited set and no depth bound; `fuel` counts the steps the model may
still take, so `Option.none` for every fuel exhibits divergence. -/
def is_item_available_on_planet : Nat → AnalyzerState → Value → String → Option Bool
  | 0, _, _, _ => Option.none
  | fuel + 1, st, item_name, planet =>
    if (resourcesFor st planet).any (fun s => Value.beq item_name (Value.vstr s)) then
      some true
    else availabilityScan fuel st st.prototype_histories item_name planet
termination_by structural fuel => fuel

/-- The source's loop over `prototype_histories` inside
`_is_item_available_on_planet`: skips non-recipe keys and malformed
values; on the first recipe whose results mention the item it returns
that recipe's availability (it does not keep scanning). -/
def availabilityScan :
    Nat → AnalyzerState → List (String × PrototypeHistory) → Value → String → Option Bool
  | 0, _, _, _, _ => Option.none
  | _ + 1, _, [], _, _ => some false
  | fuel + 1, st, (key, h) :: rest, item_name, planet =>
    if ("recipe.".toList.isPrefixOf key.toList) then
      match h.current_value with
      | Value.vdict (f0 :: frest) =>
        let recipe_data := Value.vdict (f0 :: frest)
        let results :=
          match recipe_data.getOpt "results" with
          | some r => r
          | Option.none => (recipe_data.getOpt "result").getD Value.vnone
        match results with
        | Value.vstr s =>
          if Value.beq (Value.vstr s) item_name then
            is_recipe_available_on_planet fuel st key planet
          else availabilityScan fuel st rest item_name planet
        | Value.vlist rs =>
          if rs.any (resultMatches item_name) then
            is_recipe_available_on_planet fuel st key planet
          else availabilityScan fuel st rest item_name planet
        | _ => availabilityScan fuel st rest item_name planet
      | _ => availabilityScan fuel st rest item_name planet
    else availabilityScan fuel st rest item_name planet
termination_by structural fuel => fuel

/-- Source `_is_recipe_available_on_planet`: available iff every
ingredient dependency's target item is available (recursively). -/
def is_recipe_available_on_planet : Nat → AnalyzerState → String → String → Option Bool
  | 0, _, _, _ => Option.none
  | fuel + 1, st, recipe_key, planet =>
    ingredientsAvailable fuel st ((assocGet st.dependency_graph recipe_key).getD []) planet
termination_by structural fuel => fuel

/-- The source's loop over a recipe's dependencies inside
`_is_recipe_available_on_planet`. -/
def ingredientsAvailable : Nat → AnalyzerState → List PrototypeDependency → String → Option Bool
  | 0, _, _, _ => Option.none
  | _ + 1, _, [], _ => some true
  | fuel + 1, st, dep :: rest, planet =>
    if dep.dependency_type == DependencyType.RECIPE_INGREDIENT then
      match is_item_available_on_planet fuel st dep.target_name planet with
      | Option.none => Option.none
      | some false => some false
      | some true => ingredientsAvailable fuel st rest planet
    else ingredientsAvailable fuel st rest planet
termination_by structural fuel => fuel

end

/-- A recipe named `own` producing item `own` from one unit of item
`other` — the building block of the two-recipe ingredient cycle. -/
def cyclicRecipeValue (own other : String) : Value :=
  Value.vdict [("name", Value.vstr own),
    ("ingredients", Value.vlist
      [Value.vdict [("name", Value.vstr other), ("amount", Value.vint 1)]]),
    ("results", Value.vlist
      [Value.vdict [("name", Value.vstr own), ("amount", Value.vint 1)]])]

/-- The analyzer state holding the cycle: recipe `a` requires item `b`,
recipe `b` requires item `a`, no planet provides either as a base
resource; the graph rows are exactly what the source's graph builder
derives from the two recipe values. -/
def cyclicState : AnalyzerState :=
  { prototype_histories :=
      [("recipe.a", { prototype_type := "recipe", prototype_name := "a"
                      current_value := cyclicRecipeValue "a" "b" }),
       ("recipe.b", { prototype_type := "recipe", prototype_name := "b"
                      current_value := cyclicRecipeValue "b" "a" })]
    dependency_graph :=
      [("recipe.a", analyze_recipe_dependencies (cyclicRecipeValue "a" "b")),
       ("recipe.b", analyze_recipe_dependencies (cyclicRecipeValue "b" "a"))]
    planet_resources := [] }

/-- Every call the cyclic evaluation passes through exhausts any amount
of fuel: the nine components cover the two item checks, the history
scans, the two recipe checks, and the two ingredient loops. -/
theorem availabilityCycleAux (fuel : Nat) :
    is_item_available_on_planet fuel cyclicState (Value.vstr "a") "nauvis" = Option.none ∧
    is_item_available_on_planet fuel cyclicState (Value.vstr "b") "nauvis" = Option.none ∧
    availabilityScan fuel cyclicState cyclicState.prototype_histories (Value.vstr "a")
      "nauvis" = Option.none ∧
    availabilityScan fuel cyclicState cyclicState.prototype_histories (Value.vstr "b")
      "nauvis" = Option.none ∧
    availabilityScan fuel cyclicState
      [("recipe.b", { prototype_type := "recipe", prototype_name := "b"
                      current_value := cyclicRecipeValue "b" "a" })]
      (Value.vstr "b") "nauvis" = Option.none ∧
    is_recipe_available_on_planet fuel cyclicState "recipe.a" "nauvis" = Option.none ∧
    is_recipe_available_on_planet fuel cyclicState "recipe.b" "nauvis" = Option.none ∧
    ingredientsAvailable fuel cyclicState
      ((assocGet cyclicState.dependency_graph "recipe.a").getD []) "nauvis" = Option.none ∧
    ingredientsAvailable fuel cyclicState
      ((assocGet cyclicState.dependency_graph "recipe.b").getD []) "nauvis" = Option.none := by
  induction fuel with
  | zero => exact ⟨rfl, rfl, rfl, rfl, rfl, rfl, rfl, rfl, rfl⟩
  | succ n ih =>
    obtain ⟨iA, iB, sA, sB, sB2, rA, rB, dA, dB⟩ := ih
    refine ⟨sA, sB, rA, sB2, rB, dA, dB, ?_, ?_⟩
    · have e : ingredientsAvailable (n + 1) cyclicState
          ((assocGet cyclicState.dependency_graph "recipe.a").getD []) "nauvis" =
          (match is_item_available_on_planet n cyclicState (Value.vstr "b") "nauvis" with
           | Option.none => Option.none
           | some false => some false
           | some true => ingredientsAvailable n cyclicState [] "nauvis") := rfl
      rw [e, iB]
    · have e : ingredientsAvailable (n + 1) cyclicState
          ((assocGet cyclicState.dependency_graph "recipe.b").getD []) "nauvis" =
          (match is_item_available_on_planet n cyclicState (Value.vstr "a") "nauvis" with
           | Option.none => Option.none
           | some false => some false
           | some true => ingredientsAvailable n cyclicState [] "nauvis") := rfl
      rw [e, iA]

/-- C1: on the two-recipe ingredient cycle the source's availability
check never returns — no amount of stack (fuel) produces an answer for
item `a` or item `b`, because the code carries no visited set.  (The
claimed bounded-time `false` result would require the visited-set guard
the source lacks.) -/
theorem availability_cycle_divergence (fuel : Nat) :
    is_item_available_on_planet fuel cyclicState (Value.vstr "a") "nauvis" = Option.none ∧
    is_item_available_on_planet fuel cyclicState (Value.vstr "b") "nauvis" = Option.none :=
  ⟨(availabilityCycleAux fuel).1, (availabilityCycleAux fuel).2.1⟩

/-- Source `_is_item_widely_available`: counts the planets on which the
item is available and compares against 75% of the configured planets.
The float comparison `available_count >= total_planets * 0.75` is exact
for the small integer counts involved and is rendered as
`3 * total ≤ 4 * count`. -/
def is_item_widely_available (fuel : Nat) (st : AnalyzerState) (item_name : Value) :
    Option Bool :=
  let planets := st.planet_resources.map Prod.fst
  let counted := planets.foldl
    (fun acc planet =>
      match acc with
      | Option.none => Option.none
      | some k =>
        match is_item_available_on_planet fuel st item_name planet with
        | Option.none => Option.none
        | some true => some (k + 1)
        | some false => some k)
    (some 0)
  match counted with
  | Option.none => Option.none
  | some available_count =>
    some (decide (3 * st.planet_resources.length ≤ 4 * available_count))

/-- The problematic-ingredient loop of `_create_critical_recipe_conflict`:
dict-shaped ingredients with a truthy name that fail the wide-availability
check, in order. -/
def problematicIngredients (fuel : Nat) (st : AnalyzerState) :
    List Value → Option (List Value)
  | [] => some []
  | ingredient :: rest =>
    match ingredient with
    | Value.vdict _ =>
      match ingredient.getOpt "name" with
      | some item_name =>
        if item_name.truthy then
          match is_item_widely_available fuel st item_name with
          | Option.none => Option.none
          | some true => problematicIngredients fuel st rest
          | some false => (problematicIngredients fuel st rest).map (fun ps => item_name :: ps)
        else problematicIngredients fuel st rest
      | Option.none => problematicIngredients fuel st rest
    | _ => problematicIngredients fuel st rest

/-- The severity `_create_critical_recipe_conflict` assigns from the
final ingredients change: `CRITICAL` when any ingredient is problematic,
else `HIGH`. -/
def critical_recipe_severity (fuel : Nat) (st : AnalyzerState)
    (final_ingredients : List Value) : Option ConflictSeverity :=
  match problematicIngredients fuel st final_ingredients with
  | Option.none => Option.none
  | some probs =>
    some (if probs.isEmpty then ConflictSeverity.HIGH else ConflictSeverity.CRITICAL)

/-- C10: with no configured availability contexts the wide-availability
check is vacuously true (`0 >= 0 * 0.75`) for every item, so the
essential-prototype pass never finds a problematic ingredient and never
escalates severity to `CRITICAL` on that ground. -/
theorem empty_contexts_wide_availability (st : AnalyzerState)
    (hempty : st.planet_resources = []) :
    (∀ fuel item_name, is_item_widely_available fuel st item_name = some true) ∧
    (∀ fuel ings, critical_recipe_severity fuel st ings = some ConflictSeverity.HIGH) := by
  have hwide : ∀ fuel item_name, is_item_widely_available fuel st item_name = some true := by
    intro fuel item_name
    simp only [is_item_widely_available, hempty]
    rfl
  have hprob : ∀ fuel ings, problematicIngredients fuel st ings = some [] := by
    intro fuel ings
    induction ings with
    | nil => rfl
    | cons ingredient rest ih =>
      cases ingredient with
      | vdict xs =>
        simp only [problematicIngredients, Value.getOpt]
        cases assocGet xs "name" with
        | none => exact ih
        | some nm =>
          by_cases t : nm.truthy = true
          · simp only [t, if_true, hwide]
            exact ih
          · simp only [t, if_false]
            exact ih
      | vnone => exact ih
      | vbool b => exact ih
      | vint n => exact ih
      | vstr s => exact ih
      | vlist ys => exact ih
  refine ⟨hwide, ?_⟩
  intro fuel ings
  simp [critical_recipe_severity, hprob]

/-- Witness: the empty-context analyzer state reports every item widely
available and assigns `HIGH` to a concrete ingredients change. -/
theorem empty_contexts_wide_availability_witness :
    (AnalyzerState.mk [] [] []).planet_resources = [] ∧
    is_item_widely_available 5 (AnalyzerState.mk [] [] []) (Value.vstr "wood-gear") =
      some true ∧
    critical_recipe_severity 5 (AnalyzerState.mk [] [] [])
      [Value.vdict [("name", Value.vstr "wood-gear"), ("amount", Value.vint 1)]] =
      some ConflictSeverity.HIGH :=
  ⟨rfl,
    (empty_contexts_wide_availability (AnalyzerState.mk [] [] []) rfl).1 5
      (Value.vstr "wood-gear"),
    (empty_contexts_wide_availability (AnalyzerState.mk [] [] []) rfl).2 5
      [Value.vdict [("name", Value.vstr "wood-gear"), ("amount", Value.vint 1)]]⟩

/-! ## Broken research chains (`_detect_broken_research_chains`) -/

/-- Source `ConflictIssue` (the `old_values`/`new_values` evidence maps
carry `Value` payloads). -/
structure ConflictIssue where
  issue_id : String
  severity : ConflictSeverity
  title : String
  description : String
  affected_prototypes : List String
  conflicting_mods : List String
  root_cause : String
  suggested_fixes : List String
  field_path : String := ""
  old_values : List (String × Value) := []
  new_values : List (String × Value) := []

/-- Python `', '.join(...)`. -/
def joinComma : List String → String
  | [] => ""
  | [s] => s
  | s :: rest => s ++ ", " ++ joinComma rest

/-- Rendering of a prerequisite name into an issue message; the names the
pass collects are strings in every state the ingestion layer can build
(a non-string would make the source's `join` raise). -/
def valueAsStr : Value → String
  | Value.vstr s => s
  | _ => ""

/-- The `tech_dependencies` map built at the top of
`_detect_broken_research_chains`: every tracked technology name paired
with the prerequisite names its dependency-graph row carries. -/
def techDependencies (histories : List (String × PrototypeHistory))
    (graph : List (String × List PrototypeDependency)) : List (String × List Value) :=
  histories.filterMap (fun kv =>
    match parse_prototype_key kv.1 with
    | some (ptype, pname) =>
      if ptype == "technology" then
        some (pname, ((assocGet graph kv.1).getD []).filterMap
          (fun dep =>
            if dep.dependency_type == DependencyType.TECHNOLOGY_PREREQUISITE then
              some dep.target_name
            else Option.none))
      else Option.none
    | Option.none => Option.none)

/-- One sweep of the source's BFS body: walks `tech_dependencies` once,
enqueueing and marking every technology not yet reachable whose
prerequisites are all reachable (later entries of the same sweep observe
earlier additions, as the source's in-loop mutation does). -/
def bfsSweep (td : List (String × List Value)) (queue reachable : List String) :
    List String × List String :=
  td.foldl
    (fun acc entry =>
      if acc.2.contains entry.1 then acc
      else if entry.2.all (fun p => acc.2.any (fun s => Value.beq p (Value.vstr s))) then
        (acc.1 ++ [entry.1], acc.2 ++ [entry.1])
      else acc)
    (queue, reachable)

/-- The source's `while tech_queue:` loop: pop the front, sweep.  Fuel
bounds the pops; every enqueued element accompanies a strictly growing
reachable set, so the generous fuel in `reachableTechs` never runs out. -/
def bfsLoop (td : List (String × List Value)) :
    Nat → List String → List String → List String
  | 0, _, reachable => reachable
  | _ + 1, [], reachable => reachable
  | fuel + 1, _ :: queueRest, reachable =>
    let swept := bfsSweep td queueRest reachable
    bfsLoop td fuel swept.1 swept.2

/-- The reachable set of the source's BFS: seeded with the technologies
whose prerequisite list is empty, then propagated. -/
def reachableTechs (td : List (String × List Value)) : List String :=
  let seeds := td.filterMap (fun entry => if entry.2.isEmpty then some entry.1 else Option.none)
  bfsLoop td (td.length * td.length + td.length + 1) seeds seeds

/-- Source `_detect_broken_research_chains`: for every technology outside
the reachable set whose prerequisites include at least one name that is
not a tracked technology at all, emit a high-severity issue naming the
undefined prerequisites. -/
def detect_broken_research_chains (histories : List (String × PrototypeHistory))
    (graph : List (String × List PrototypeDependency)) : List ConflictIssue :=
  let td := techDependencies histories graph
  let reachable := reachableTechs td
  td.filterMap (fun entry =>
    if reachable.contains entry.1 then Option.none
    else
      let missing := entry.2.filter
        (fun p => !(td.any (fun e2 => Value.beq p (Value.vstr e2.1))))
      if missing.isEmpty then Option.none
      else
        some { issue_id := "BROKEN_CHAIN_" ++ entry.1
               severity := ConflictSeverity.HIGH
               title := "Broken Research Chain: " ++ entry.1
               description := "Technology " ++ entry.1 ++
                 " is unreachable due to missing prerequisites: " ++
                 joinComma (missing.map valueAsStr)
               affected_prototypes := ["technology." ++ entry.1]
               conflicting_mods :=
                 match assocGet histories (create_prototype_key "technology" entry.1) with
                 | some h => h.modifications.map (fun record => record.mod_name)
                 | Option.none => []
               root_cause := "Missing prerequisite technologies: " ++
                 joinComma (missing.map valueAsStr)
               suggested_fixes := ["Add missing prerequisite technologies: " ++
                 joinComma (missing.map valueAsStr)] })

/-- Prepending the same string is injective. -/
theorem string_append_left_cancel {p a b : String} (h : p ++ a = p ++ b) : a = b := by
  have hd : p.data ++ a.data = p.data ++ b.data := by
    have hc := congrArg String.data h
    simpa [String.data_append] using hc
  have h2 : a.data = b.data := List.append_cancel_left hd
  calc a = String.mk a.data := rfl
    _ = String.mk b.data := by rw [h2]
    _ = b := rfl

/-- C4: the broken-prerequisite-chain pass flags technology X exactly
when X is a tracked technology not reached by the BFS propagation whose
prerequisite list references at least one name with no tracked technology
definition at all; a technology all of whose prerequisites are defined is
never flagged by this pass, even while unreachable. -/
theorem broken_chain_flagging (histories : List (String × PrototypeHistory))
    (graph : List (String × List PrototypeDependency)) (tech_name : String) :
    (∃ issue, issue ∈ detect_broken_research_chains histories graph ∧
        issue.issue_id = "BROKEN_CHAIN_" ++ tech_name) ↔
      (∃ prereqs, (tech_name, prereqs) ∈ techDependencies histories graph ∧
        (reachableTechs (techDependencies histories graph)).contains tech_name = false ∧
        ∃ p, p ∈ prereqs ∧
          ∀ e, e ∈ techDependencies histories graph →
            Value.beq p (Value.vstr e.1) = false) := by
  constructor
  · rintro ⟨issue, hmem, hid⟩
    simp only [detect_broken_research_chains, List.mem_filterMap] at hmem
    obtain ⟨entry, hentry, hf⟩ := hmem
    obtain ⟨tn, prereqs⟩ := entry
    split at hf
    · exact Option.noConfusion hf
    · next hreach =>
      split at hf
      · exact Option.noConfusion hf
      · next hmiss =>
        injection hf with hissue
        subst hissue
        simp only at hid
        have hname : tn = tech_name := string_append_left_cancel hid
        subst hname
        refine ⟨prereqs, hentry, by simpa using hreach, ?_⟩
        have hne2 : prereqs.filter
            (fun q => !((techDependencies histories graph).any
              (fun e2 => Value.beq q (Value.vstr e2.1)))) ≠ [] := by
          intro hh
          exact hmiss (by rw [hh]; rfl)
        obtain ⟨p, hp⟩ := List.exists_mem_of_ne_nil _ hne2
        have hpf := List.mem_filter.mp hp
        refine ⟨p, hpf.1, ?_⟩
        intro e he
        have hany : ((techDependencies histories graph).any
            (fun e2 => Value.beq p (Value.vstr e2.1))) = false := by
          simpa using hpf.2
        have := List.any_eq_false.mp hany e he
        simpa using this
  · rintro ⟨prereqs, hmem, hreach, p, hp, hall⟩
    have hany : ((techDependencies histories graph).any
        (fun e2 => Value.beq p (Value.vstr e2.1))) = false := by
      rw [List.any_eq_false]
      intro e he
      simp [hall e he]
    have hpred : (!((techDependencies histories graph).any
        (fun e2 => Value.beq p (Value.vstr e2.1)))) = true := by
      simp [hany]
    have hpm : p ∈ prereqs.filter
        (fun q => !((techDependencies histories graph).any
          (fun e2 => Value.beq q (Value.vstr e2.1)))) :=
      List.mem_filter.mpr ⟨hp, hpred⟩
    have hne : (prereqs.filter
        (fun q => !((techDependencies histories graph).any
          (fun e2 => Value.beq q (Value.vstr e2.1))))).isEmpty = false := by
      have hnil := List.ne_nil_of_mem hpm
      cases hh : (prereqs.filter
          (fun q => !((techDependencies histories graph).any
            (fun e2 => Value.beq q (Value.vstr e2.1))))) with
      | nil => exact absurd hh hnil
      | cons a rest => rfl
    refine ⟨{ issue_id := "BROKEN_CHAIN_" ++ tech_name
              severity := ConflictSeverity.HIGH
              title := "Broken Research Chain: " ++ tech_name
              description := "Technology " ++ tech_name ++
                " is unreachable due to missing prerequisites: " ++
                joinComma ((prereqs.filter
                  (fun q => !((techDependencies histories graph).any
                    (fun e2 => Value.beq q (Value.vstr e2.1))))).map valueAsStr)
              affected_prototypes := ["technology." ++ tech_name]
              conflicting_mods :=
                match assocGet histories (create_prototype_key "technology" tech_name) with
                | some h => h.modifications.map (fun record => record.mod_name)
                | Option.none => []
              root_cause := "Missing prerequisite technologies: " ++
                joinComma ((prereqs.filter
                  (fun q => !((techDependencies histories graph).any
                    (fun e2 => Value.beq q (Value.vstr e2.1))))).map valueAsStr)
              suggested_fixes := ["Add missing prerequisite technologies: " ++
                joinComma ((prereqs.filter
                  (fun q => !((techDependencies histories graph).any
                    (fun e2 => Value.beq q (Value.vstr e2.1))))).map valueAsStr)] },
      ?_, rfl⟩
    simp only [detect_broken_research_chains, List.mem_filterMap]
    refine ⟨(tech_name, prereqs), hmem, ?_⟩
    simp only [hreach, Bool.false_eq_true, if_false, hne]

/-! ## Patch generator (`generate_patch_suggestions`) -/

/-- Source `PatchSuggestion`.  The textual artifact fields (`lua_code`,
`settings_code`, `json_data`, `side_effects`) are presentation payload
with no effect on which patches exist or their identifiers and are not
modelled. -/
structure PatchSuggestion where
  patch_id : String
  target_mod : String
  target_file : String
  issue_ids : List String
  patch_type : String
  description : String
  estimated_impact : ConflictSeverity := ConflictSeverity.LOW

/-- Source `ModCompatibilityReport`, restricted to the fields the patch
generator and the summary consume (the per-key analysis map and graph are
not read by `generate_patch_suggestions`). -/
structure ModCompatibilityReport where
  analyzed_mods : List String
  analysis_timestamp : String
  total_prototypes : Nat
  conflicted_prototypes : Nat
  critical_issues : Nat
  high_issues : Nat
  medium_issues : Nat
  low_issues : Nat
  all_issues : List ConflictIssue
  mod_load_order : List String

/-- The `mod_recipe_data` accumulation of `_create_recipe_patch`: per
mod, a seeded recipe dict updated from each record — a truthy dict
`new_value` copies every field except the bookkeeping keys (the source's
explicit re-copies of ingredients/results/energy/category re-assign the
same values), otherwise a truthy field-path modification sets that one
field. -/
def accumulateRecipeData (prototype_name : String) (records : List ModificationRecord) :
    List (String × List (String × Value)) :=
  records.foldl
    (fun acc record =>
      let cur := (assocGet acc record.mod_name).getD
        [("name", Value.vstr prototype_name), ("type", Value.vstr "recipe"),
         ("enabled", Value.vbool true)]
      let cur2 :=
        match record.new_value with
        | Value.vdict (f0 :: frest) =>
          (f0 :: frest).foldl
            (fun c kv =>
              if kv.1 == "modified_by" || kv.1 == "modifications" then c
              else assocSet c kv.1 kv.2)
            cur
        | _ =>
          if record.field_path == "ingredients" && record.new_value.truthy then
            assocSet cur "ingredients" record.new_value
          else if record.field_path == "results" && record.new_value.truthy then
            assocSet cur "results" record.new_value
          else if record.field_path == "energy_required" && record.new_value.truthy then
            assocSet cur "energy_required" record.new_value
          else if record.field_path == "category" && record.new_value.truthy then
            assocSet cur "category" record.new_value
          else cur
      assocSet acc record.mod_name cur2)
    []

/-- The `valid_mod_data` filter of `_create_recipe_patch`: keeps mods
whose reconstruction carries truthy ingredients, results, or category. -/
def validModData (mrd : List (String × List (String × Value))) :
    List (String × List (String × Value)) :=
  mrd.filter (fun kv =>
    (match assocGet kv.2 "ingredients" with | some v => v.truthy | Option.none => false) ||
    (match assocGet kv.2 "results" with | some v => v.truthy | Option.none => false) ||
    (match assocGet kv.2 "category" with | some v => v.truthy | Option.none => false))

/-- Source `_create_recipe_patch`: `None` without an affected prototype,
without a history for it, or without any valid reconstructed mod data;
otherwise the `..._ALL_VARIANTS` patch.  (A key without a separator makes
the source raise; it is modelled as producing no patch and is unreachable
for keys built by `create_prototype_key`.) -/
def create_recipe_patch (histories : List (String × PrototypeHistory))
    (issue : ConflictIssue) : Option PatchSuggestion :=
  match issue.affected_prototypes with
  | [] => Option.none
  | prototype_key :: _ =>
    match parse_prototype_key prototype_key with
    | Option.none => Option.none
    | some (prototype_type, prototype_name) =>
      match assocGet histories (create_prototype_key prototype_type prototype_name) with
      | Option.none => Option.none
      | some history =>
        if (validModData (accumulateRecipeData prototype_name history.modifications)).isEmpty
        then Option.none
        else
          some { patch_id := "PATCH_" ++ prototype_name.toUpper ++ "_ALL_VARIANTS"
                 target_mod := "factorio-harmonizer-patch"
                 target_file := "data-final-fixes.lua"
                 issue_ids := [issue.issue_id]
                 patch_type := "recipe_variant_expansion"
                 description := "Recipe expansion for " ++ prototype_name ++
                   " - adds all mod variants as additional recipes"
                 estimated_impact := issue.severity }

/-- Source `_create_research_patch`: `None` without an affected prototype
or history; otherwise the `..._RESEARCH_COMPREHENSIVE` patch whose
description counts the per-mod alternatives plus the fixed ladder of
three fallbacks. -/
def create_research_patch (histories : List (String × PrototypeHistory))
    (issue : ConflictIssue) : Option PatchSuggestion :=
  match issue.affected_prototypes with
  | [] => Option.none
  | prototype_key :: _ =>
    match parse_prototype_key prototype_key with
    | Option.none => Option.none
    | some (prototype_type, prototype_name) =>
      match assocGet histories (create_prototype_key prototype_type prototype_name) with
      | Option.none => Option.none
      | some history =>
        let mod_techs := history.modifications.foldl
          (fun acc record =>
            if record.field_path == "prerequisites" || record.field_path == "unit" ||
                record.field_path == "effects" then
              assocSet acc record.mod_name
                (assocSet ((assocGet acc record.mod_name).getD []) record.field_path
                  record.new_value)
            else acc)
          []
        let alternative_count := (mod_techs.filter (fun kv => !kv.2.isEmpty)).length
        some { patch_id := "PATCH_" ++ prototype_name.toUpper ++ "_RESEARCH_COMPREHENSIVE"
               target_mod := "factorio-harmonizer-patch"
               target_file := "data-final-fixes.lua"
               issue_ids := [issue.issue_id]
               patch_type := "comprehensive_research_modification"
               description := "Comprehensive research compatibility patch for " ++
                 prototype_name ++ " with " ++ toString (alternative_count + 3) ++
                 " alternative research paths"
               estimated_impact := issue.severity }

/-- Source `_create_availability_patch`: unimplemented, always `None`. -/
def create_availability_patch (histories : List (String × PrototypeHistory))
    (issue : ConflictIssue) : Option PatchSuggestion :=
  Option.none

/-- Source `_create_generic_patch`. -/
def create_generic_patch (issue : ConflictIssue) : Option PatchSuggestion :=
  match issue.affected_prototypes with
  | [] => Option.none
  | prototype_key :: _ =>
    match parse_prototype_key prototype_key with
    | Option.none => Option.none
    | some (prototype_type, prototype_name) =>
      some { patch_id := "PATCH_" ++ prototype_name.toUpper ++ "_GENERIC"
             target_mod := "factorio-harmonizer-patch"
             target_file := "data-final-fixes.lua"
             issue_ids := [issue.issue_id]
             patch_type := "generic_compatibility"
             description := "Generic compatibility patch for " ++ prototype_type ++ " " ++
               prototype_name
             estimated_impact := issue.severity }

/-- Python's substring operator `pat in s` at character level. -/
def charsInfixOf (pat : List Char) : List Char → Bool
  | [] => pat.isEmpty
  | c :: rest => pat.isPrefixOf (c :: rest) || charsInfixOf pat rest

/-- An issue lands in the recipe bucket when any affected key contains
the substring `recipe.` (the source's `"recipe." in proto`). -/
def isRecipeIssue (issue : ConflictIssue) : Bool :=
  issue.affected_prototypes.any (fun proto => charsInfixOf "recipe.".toList proto.toList)

/-- Research-bucket test, `"technology." in proto`. -/
def isResearchIssue (issue : ConflictIssue) : Bool :=
  issue.affected_prototypes.any (fun proto => charsInfixOf "technology.".toList proto.toList)

/-- Python's stable `sorted(key = severity_order.index)`: because the key
takes exactly the five enum values, the stable sort equals concatenating
the per-severity sublists in severity order. -/
def sortBySeverity (issues : List ConflictIssue) : List ConflictIssue :=
  (issues.filter (fun i => i.severity == ConflictSeverity.CRITICAL)) ++
  (issues.filter (fun i => i.severity == ConflictSeverity.HIGH)) ++
  (issues.filter (fun i => i.severity == ConflictSeverity.MEDIUM)) ++
  (issues.filter (fun i => i.severity == ConflictSeverity.LOW)) ++
  (issues.filter (fun i => i.severity == ConflictSeverity.INFO))

/-- One bucket loop of `generate_patch_suggestions`: skip issues without
affected prototypes, deduplicate on the first affected key via the
`processed_prototypes` seen-set (membership queries only), append the
created patch when the creator returns one. -/
def processBucket (create : ConflictIssue → Option PatchSuggestion) :
    List ConflictIssue → List PatchSuggestion × List String →
      List PatchSuggestion × List String
  | [], acc => acc
  | issue :: rest, acc =>
    match issue.affected_prototypes with
    | [] => processBucket create rest acc
    | prototype_key :: _ =>
      if acc.2.contains prototype_key then processBucket create rest acc
      else
        match create issue with
        | some patch => processBucket create rest (acc.1 ++ [patch], acc.2 ++ [prototype_key])
        | Option.none => processBucket create rest (acc.1, acc.2 ++ [prototype_key])

/-- Source `generate_patch_suggestions`: partition all issues into
recipe/research/other buckets, stable-sort each by severity, then process
the buckets in that fixed order with a shared seen-set; critical issues
in the other bucket go to the (empty) availability creator, the rest to
the generic creator. -/
def generate_patch_suggestions (histories : List (String × PrototypeHistory))
    (report : ModCompatibilityReport) : List PatchSuggestion :=
  let recipe_issues := report.all_issues.filter isRecipeIssue
  let research_issues := report.all_issues.filter
    (fun i => !isRecipeIssue i && isResearchIssue i)
  let other_issues := report.all_issues.filter
    (fun i => !isRecipeIssue i && !isResearchIssue i)
  let s1 := processBucket (create_recipe_patch histories) (sortBySeverity recipe_issues)
    ([], [])
  let s2 := processBucket (create_research_patch histories) (sortBySeverity research_issues) s1
  let s3 := processBucket
    (fun issue =>
      if issue.severity == ConflictSeverity.CRITICAL then
        create_availability_patch histories issue
      else create_generic_patch issue)
    (sortBySeverity other_issues) s2
  s3.1

/-- Membership-equivalent seen-set representations answer every
`contains` query identically. -/
theorem contains_eq_of_perm {l1 l2 : List String} (hperm : l1.Perm l2) (k : String) :
    l1.contains k = l2.contains k := by
  rw [List.contains_eq_any_beq, List.contains_eq_any_beq, Bool.eq_iff_iff]
  simp only [List.any_eq_true]
  constructor
  · rintro ⟨x, hx, hkx⟩
    exact ⟨x, hperm.mem_iff.mp hx, hkx⟩
  · rintro ⟨x, hx, hkx⟩
    exact ⟨x, hperm.mem_iff.mpr hx, hkx⟩

/-- The emitted patches of a bucket pass do not depend on the internal
order of the seen-set: any permutation of `processed_prototypes` yields
the same patch list. -/
theorem processBucket_perm_indep (create : ConflictIssue → Option PatchSuggestion)
    (issues : List ConflictIssue) :
    ∀ patches seen1 seen2, seen1.Perm seen2 →
      (processBucket create issues (patches, seen1)).1 =
      (processBucket create issues (patches, seen2)).1 := by
  induction issues with
  | nil =>
    intro patches s1 s2 hperm
    rfl
  | cons issue rest ih =>
    intro patches s1 s2 hperm
    cases hap : issue.affected_prototypes with
    | nil =>
      simp only [processBucket, hap]
      exact ih patches s1 s2 hperm
    | cons key ktail =>
      have hc := contains_eq_of_perm hperm key
      simp only [processBucket, hap]
      by_cases hc1 : s1.contains key = true
      · have hc2 : s2.contains key = true := by rw [← hc]; exact hc1
        simp only [hc1, hc2, if_true]
        exact ih patches s1 s2 hperm
      · have hc1f : s1.contains key = false := by simpa using hc1
        have hc2f : s2.contains key = false := by rw [← hc]; exact hc1f
        simp only [hc1f, hc2f, Bool.false_eq_true, if_false]
        cases hcr : create issue with
        | some patch => exact ih _ _ _ (hperm.append (List.Perm.refl _))
        | none => exact ih _ _ _ (hperm.append (List.Perm.refl _))

/-- C5: patch generation is deterministic — two invocations on the same
unmodified report produce the same ordered `patch_id` list (the embedding
is a pure function of the report and history store: dict iteration is
insertion-ordered, the severity sort is stable, and the only set, the
seen-set, is queried for membership only — which the second conjunct
makes explicit by showing the emitted patches are invariant under any
reordering of it). -/
theorem patch_generation_deterministic (histories : List (String × PrototypeHistory))
    (report : ModCompatibilityReport) :
    ((generate_patch_suggestions histories report).map (fun patch => patch.patch_id) =
      (generate_patch_suggestions histories report).map (fun patch => patch.patch_id)) ∧
    (∀ create issues patches seen1 seen2, List.Perm seen1 seen2 →
      (processBucket create issues (patches, seen1)).1 =
      (processBucket create issues (patches, seen2)).1) :=
  ⟨rfl, fun create issues patches s1 s2 hperm =>
    processBucket_perm_indep create issues patches s1 s2 hperm⟩

/-- Witness: a concrete bucket processed against two reorderings of the
same seen-set yields the same patches. -/
theorem patch_generation_deterministic_witness :
    (["recipe.x", "item.y"] : List String).Perm ["item.y", "recipe.x"] ∧
    (processBucket create_generic_patch
      [{ issue_id := "I1", severity := ConflictSeverity.HIGH, title := "t"
         description := "d", affected_prototypes := ["entity.belt"]
         conflicting_mods := ["modA"], root_cause := "r", suggested_fixes := [] }]
      ([], ["recipe.x", "item.y"])).1 =
    (processBucket create_generic_patch
      [{ issue_id := "I1", severity := ConflictSeverity.HIGH, title := "t"
         description := "d", affected_prototypes := ["entity.belt"]
         conflicting_mods := ["modA"], root_cause := "r", suggested_fixes := [] }]
      ([], ["item.y", "recipe.x"])).1 :=
  ⟨by decide,
    (patch_generation_deterministic []
      { analyzed_mods := [], analysis_timestamp := "", total_prototypes := 0
        conflicted_prototypes := 0, critical_issues := 0, high_issues := 0
        medium_issues := 0, low_issues := 0, all_issues := [], mod_load_order := [] }).2
      create_generic_patch
      [{ issue_id := "I1", severity := ConflictSeverity.HIGH, title := "t"
         description := "d", affected_prototypes := ["entity.belt"]
         conflicting_mods := ["modA"], root_cause := "r", suggested_fixes := [] }]
      [] ["recipe.x", "item.y"] ["item.y", "recipe.x"] (by decide)⟩
